import Mathlib

/-!
Shallow embedding of the `ai-collaboration` worker: the `ProjectCoordinator`
durable object (src/src/durable-objects/ProjectCoordinator.ts) and the
`DatabaseService` project directory (src/src/services/DatabaseService.ts),
with the claim theorems about them.

JavaScript `Map` objects are embedded as association lists with JS `Map`
semantics (`set` updates in place keeping position, else appends; `delete`
removes the key; iteration order = insertion order). JS numbers used as
hour counts are embedded as `Rat`; timestamps and counters as `Nat`.
`crypto.randomUUID()` is embedded as a counter-driven generator producing
pairwise-distinct non-empty identifiers.
-/

set_option maxRecDepth 8000

namespace AiCollab

/-- JS `Array.prototype.slice(start)` for an integer `start` argument. -/
def jsSliceFrom (start : Int) (l : List α) : List α :=
  let len : Int := l.length
  let s : Int := if start < 0 then max (len + start) 0 else min start len
  l.drop s.toNat

/-- The last `n` elements of `l` (all of `l` when `n ≥ l.length`). -/
def takeLast (n : Nat) (l : List α) : List α :=
  l.drop (l.length - n)

theorem takeLast_length (n : Nat) (l : List α) :
    (takeLast n l).length = min n l.length := by
  rw [takeLast, List.length_drop]; omega

theorem takeLast_of_le {n : Nat} {l : List α} (h : l.length ≤ n) :
    takeLast n l = l := by
  simp [takeLast, Nat.sub_eq_zero_of_le h]

theorem jsSliceFrom_neg {n : Nat} (hn : 1 ≤ n) (l : List α) :
    jsSliceFrom (-(n : Int)) l = takeLast n l := by
  show List.drop _ l = List.drop _ l
  have hlt : -(n : Int) < 0 := by omega
  rw [if_pos hlt]
  congr 1
  omega

theorem takeLast_suffix (n : Nat) (l : List α) : takeLast n l <:+ l :=
  List.drop_suffix _ _

/-- Trimming at each step commutes with trimming once at the end. -/
theorem takeLast_takeLast_append (k : Nat) (a b : List α) :
    takeLast k (takeLast k a ++ b) = takeLast k (a ++ b) := by
  simp only [takeLast, List.drop_append_eq_append_drop, List.length_append,
    List.length_drop, List.drop_drop]
  congr 2
  · omega
  · omega

/-! ### Association-list embedding of JS `Map` -/

/-- JS `Map.prototype.get`. -/
def mapGet : List (String × α) → String → Option α
  | [], _ => none
  | (k', v) :: rest, k => if k' = k then some v else mapGet rest k

/-- JS `Map.prototype.set`: updates the value in place if the key is
present (keeping its position), otherwise appends the entry. -/
def mapSet : List (String × α) → String → α → List (String × α)
  | [], k, v => [(k, v)]
  | (k', v') :: rest, k, v =>
    if k' = k then (k, v) :: rest else (k', v') :: mapSet rest k v

/-- JS `Map.prototype.delete` (ignoring the returned boolean). -/
def mapDelete : List (String × α) → String → List (String × α)
  | [], _ => []
  | (k', v) :: rest, k =>
    if k' = k then mapDelete rest k else (k', v) :: mapDelete rest k

def mapKeys (m : List (String × α)) : List String := m.map Prod.fst

def mapValues (m : List (String × α)) : List α := m.map Prod.snd

@[simp]
theorem mapKeys_nil : mapKeys ([] : List (String × α)) = [] := rfl

@[simp]
theorem mapKeys_cons (k : String) (v : α) (rest : List (String × α)) :
    mapKeys ((k, v) :: rest) = k :: mapKeys rest := rfl

theorem mapGet_eq_none_iff {m : List (String × α)} {k : String} :
    mapGet m k = none ↔ k ∉ mapKeys m := by
  induction m with
  | nil => simp [mapGet]
  | cons p rest ih =>
    obtain ⟨k', v⟩ := p
    by_cases h : k' = k
    · subst h
      simp [mapGet]
    · rw [mapKeys_cons, List.mem_cons]
      simp only [mapGet, if_neg h, ih]
      constructor
      · rintro hk (h1 | h2)
        · exact h h1.symm
        · exact hk h2
      · intro hk
        exact fun h2 => hk (Or.inr h2)

theorem mapKeys_mapSet_of_mem {m : List (String × α)} {k : String} (v : α)
    (h : k ∈ mapKeys m) : mapKeys (mapSet m k v) = mapKeys m := by
  induction m with
  | nil => simp at h
  | cons p rest ih =>
    obtain ⟨k', v'⟩ := p
    by_cases hk : k' = k
    · subst hk
      simp [mapSet]
    · rw [mapKeys_cons, List.mem_cons] at h
      rcases h with h | h
      · exact absurd h.symm hk
      · simp only [mapSet, if_neg hk, mapKeys_cons, ih h]

theorem mapKeys_mapSet_of_not_mem {m : List (String × α)} {k : String} (v : α)
    (h : k ∉ mapKeys m) : mapKeys (mapSet m k v) = mapKeys m ++ [k] := by
  induction m with
  | nil => simp [mapSet]
  | cons p rest ih =>
    obtain ⟨k', v'⟩ := p
    rw [mapKeys_cons, List.mem_cons] at h
    push_neg at h
    simp only [mapSet, if_neg (Ne.symm h.1), mapKeys_cons, ih h.2,
      List.cons_append]

theorem nodup_mapKeys_mapSet {m : List (String × α)} {k : String} (v : α)
    (h : (mapKeys m).Nodup) : (mapKeys (mapSet m k v)).Nodup := by
  by_cases hk : k ∈ mapKeys m
  · rwa [mapKeys_mapSet_of_mem v hk]
  · rw [mapKeys_mapSet_of_not_mem v hk]
    simp [List.nodup_append, h, hk]

theorem mapDelete_sublist (m : List (String × α)) (k : String) :
    List.Sublist (mapDelete m k) m := by
  induction m with
  | nil => simp [mapDelete]
  | cons p rest ih =>
    obtain ⟨k', v⟩ := p
    by_cases h : k' = k
    · simp only [mapDelete, if_pos h]
      exact ih.trans (List.sublist_cons_self _ _)
    · simpa only [mapDelete, if_neg h] using ih.cons₂ _

theorem nodup_mapKeys_mapDelete {m : List (String × α)} (k : String)
    (h : (mapKeys m).Nodup) : (mapKeys (mapDelete m k)).Nodup :=
  h.sublist ((mapDelete_sublist m k).map Prod.fst)

theorem mapDelete_of_not_mem {m : List (String × α)} {k : String}
    (h : k ∉ mapKeys m) : mapDelete m k = m := by
  induction m with
  | nil => rfl
  | cons p rest ih =>
    obtain ⟨k', v⟩ := p
    rw [mapKeys_cons, List.mem_cons] at h
    push_neg at h
    simp only [mapDelete, if_neg (Ne.symm h.1), ih h.2]

/-! ### Data model (`ProjectCoordinator.ts` interfaces)

Enumerations (`role`, `status`, ...) are embedded as `String`, matching the
way the code compares them (string equality against literals). JS
`Record<string, any>` maps are embedded as `List (String × String)`
association lists (the code only stores and shallow-merges them). A live
`WebSocket` reference is embedded as `Option Nat`: a connection handle
while connected. -/

/-- `interface Agent` of ProjectCoordinator.ts, including the optional
`websocket` live-connection reference. -/
structure Agent where
  id : String
  name : String
  role : String
  model : String
  status : String
  currentTask : Option String
  websocket : Option Nat
  lastSeen : Nat
  capabilities : List String
  preferences : List (String × String)
deriving DecidableEq

/-- `interface Task` of ProjectCoordinator.ts. Hour counts are JS numbers,
embedded as `Rat`. -/
structure Task where
  id : String
  title : String
  description : String
  assignedTo : Option String
  status : String
  priority : String
  dependencies : List String
  estimatedHours : Option Rat
  actualHours : Option Rat
  createdAt : Nat
  updatedAt : Nat
  tags : List String
deriving DecidableEq

/-- `interface Message` of ProjectCoordinator.ts. -/
structure Message where
  id : String
  agentId : String
  type : String
  content : String
  metadata : Option (List (String × String))
  timestamp : Nat
deriving DecidableEq

/-- `notificationSettings` sub-object of `ProjectSettings`. -/
structure NotificationSettings where
  onTaskComplete : Bool
  onAgentJoin : Bool
  onBlocker : Bool
deriving DecidableEq

/-- `aiAssistance` sub-object of `ProjectSettings`. -/
structure AiAssistance where
  enabled : Bool
  autoSuggestions : Bool
  codeReview : Bool
deriving DecidableEq

/-- `interface ProjectSettings` of ProjectCoordinator.ts. -/
structure ProjectSettings where
  maxAgents : Nat
  allowCrossAgentChat : Bool
  autoSaveInterval : Nat
  notificationSettings : NotificationSettings
  aiAssistance : AiAssistance
deriving DecidableEq

/-- `interface ProjectState` of ProjectCoordinator.ts. The `agents` and
`tasks` JS `Map`s are embedded as association lists. -/
structure ProjectState where
  id : String
  name : String
  description : String
  status : String
  agents : List (String × Agent)
  tasks : List (String × Task)
  files : List String
  context : List (String × String)
  messageHistory : List Message
  createdAt : Nat
  updatedAt : Nat
  settings : ProjectSettings
deriving DecidableEq

/-- The default settings built in the constructor when no stored state
exists. -/
def defaultSettings : ProjectSettings :=
  { maxAgents := 10
    allowCrossAgentChat := true
    autoSaveInterval := 30000
    notificationSettings :=
      { onTaskComplete := true, onAgentJoin := true, onBlocker := true }
    aiAssistance :=
      { enabled := true, autoSuggestions := true, codeReview := true } }

/-- The default state built in the constructor when no stored state exists
(`Date.now()` = `now`). -/
def defaultProjectState (now : Nat) : ProjectState :=
  { id := ""
    name := ""
    description := ""
    status := "planning"
    agents := []
    tasks := []
    files := []
    context := []
    messageHistory := []
    createdAt := now
    updatedAt := now
    settings := defaultSettings }

/-! ### Partial inputs (`Partial<...>` payloads) and id generation

A field of a `Partial<T>` payload is `Option`-wrapped: `none` = absent.
`crypto.randomUUID()` is embedded as `genId` applied to a running counter
that is threaded through every operation (distinct counter values give
distinct non-empty identifiers, the standard model of UUID generation). -/

def genId (n : Nat) : String := "uuid-" ++ toString n

/-- JS `v || d` for a possibly-absent string `v`: the empty string is falsy. -/
def jsOrString (v : Option String) (d : String) : String :=
  match v with
  | some s => if s = "" then d else s
  | none => d

/-- `data.id || crypto.randomUUID()`: keeps a supplied truthy id, otherwise
draws a fresh one, returning the (possibly bumped) counter. -/
def freshId (v : Option String) (ctr : Nat) : String × Nat :=
  match v with
  | some s => if s = "" then (genId ctr, ctr + 1) else (s, ctr)
  | none => (genId ctr, ctr + 1)

/-- `Partial<Agent>` as accepted by `registerAgent`. The `websocket` field
cannot arrive through a JSON payload; the initiating socket is a separate
parameter, as in the source. -/
structure AgentData where
  id : Option String := none
  name : Option String := none
  role : Option String := none
  model : Option String := none
  status : Option String := none
  currentTask : Option String := none
  capabilities : Option (List String) := none
  preferences : Option (List (String × String)) := none
deriving DecidableEq

/-- `Partial<Agent>` as accepted by `updateAgent` (overlaid with
`Object.assign`); `lastSeen` is forced to `now` afterwards whatever the
payload says. -/
structure AgentUpdates where
  id : Option String := none
  name : Option String := none
  role : Option String := none
  model : Option String := none
  status : Option String := none
  currentTask : Option String := none
  lastSeen : Option Nat := none
  capabilities : Option (List String) := none
  preferences : Option (List (String × String)) := none
deriving DecidableEq

/-- `Partial<Task>` as accepted by `createTask`. -/
structure TaskData where
  id : Option String := none
  title : Option String := none
  description : Option String := none
  assignedTo : Option String := none
  status : Option String := none
  priority : Option String := none
  dependencies : Option (List String) := none
  estimatedHours : Option Rat := none
  actualHours : Option Rat := none
  tags : Option (List String) := none
deriving DecidableEq

/-- `Partial<Task>` as accepted by `updateTask`; `updatedAt` is forced to
`now` afterwards. -/
structure TaskUpdates where
  id : Option String := none
  title : Option String := none
  description : Option String := none
  assignedTo : Option String := none
  status : Option String := none
  priority : Option String := none
  dependencies : Option (List String) := none
  estimatedHours : Option Rat := none
  actualHours : Option Rat := none
  createdAt : Option Nat := none
  tags : Option (List String) := none
deriving DecidableEq

/-- `Partial<Message>` as accepted by `sendMessage`. -/
structure MessageData where
  id : Option String := none
  agentId : Option String := none
  type : Option String := none
  content : Option String := none
  metadata : Option (List (String × String)) := none
deriving DecidableEq

/-- `Partial<ProjectState>` as accepted by `initializeProject`. The
Map-valued `agents`/`tasks` fields are omitted: a JSON payload cannot carry
a JS `Map`, and spreading a plain object into those fields would leave the
coordinator with non-`Map` values that crash on the next `.set` call —
such inputs leave the modeled domain. `createdAt`/`updatedAt` from the
payload are irrelevant because the operation overwrites both with `now`. -/
structure InitData where
  id : Option String := none
  name : Option String := none
  description : Option String := none
  status : Option String := none
  files : Option (List String) := none
  context : Option (List (String × String)) := none
  messageHistory : Option (List Message) := none
  settings : Option ProjectSettings := none
deriving DecidableEq

/-! ### Coordinator operations -/

/-- Broadcast events (`broadcastToAll` payload kinds). -/
inductive Event where
  | projectInitialized
  | agentJoined (agentId : String)
  | agentUpdated (agentId : String)
  | agentLeft (agentId : String)
  | taskCreated (taskId : String)
  | taskUpdated (taskId : String)
  | taskDeleted (taskId : String)
  | messageNew (messageId : String)
  | contextUpdated
deriving DecidableEq

/-- `initializeProject`: spreads the payload over the current state,
overrides `id` with `data.id || randomUUID()` and resets both timestamps
to `now`. -/
def initializeProjectOp (st : ProjectState) (ctr now : Nat) (d : InitData) :
    ProjectState × Nat :=
  let (pid, ctr2) := freshId d.id ctr
  ({ st with
      id := pid
      name := d.name.getD st.name
      description := d.description.getD st.description
      status := d.status.getD st.status
      files := d.files.getD st.files
      context := d.context.getD st.context
      messageHistory := d.messageHistory.getD st.messageHistory
      settings := d.settings.getD st.settings
      createdAt := now
      updatedAt := now }, ctr2)

/-- `registerAgent`: fills defaults, forces status `"active"`, stores the
initiating socket (if any) on the agent, and inserts it into the map. -/
def registerAgentOp (st : ProjectState) (ctr now : Nat) (d : AgentData)
    (ws : Option Nat) : Agent × ProjectState × Nat :=
  let (aid, ctr2) := freshId d.id ctr
  let agent : Agent :=
    { id := aid
      name := jsOrString d.name "Unknown Agent"
      role := jsOrString d.role "fullstack"
      model := jsOrString d.model "custom"
      status := "active"
      currentTask := d.currentTask
      websocket := ws
      lastSeen := now
      capabilities := d.capabilities.getD []
      preferences := d.preferences.getD [] }
  (agent,
   { st with agents := mapSet st.agents aid agent, updatedAt := now },
   ctr2)

/-- `Object.assign(agent, updates, \x7b lastSeen: Date.now() \x7d)`. -/
def applyAgentUpdates (a : Agent) (u : AgentUpdates) (now : Nat) : Agent :=
  { id := u.id.getD a.id
    name := u.name.getD a.name
    role := u.role.getD a.role
    model := u.model.getD a.model
    status := u.status.getD a.status
    currentTask := match u.currentTask with
      | some c => some c
      | none => a.currentTask
    websocket := a.websocket
    lastSeen := now
    capabilities := u.capabilities.getD a.capabilities
    preferences := u.preferences.getD a.preferences }

/-- `updateAgent`: throws `"Agent not found"` if absent, otherwise overlays
the supplied fields in place (the map key is unchanged). -/
def updateAgentOp (st : ProjectState) (now : Nat) (agentId : String)
    (u : AgentUpdates) : Except String ProjectState :=
  match mapGet st.agents agentId with
  | none => .error "Agent not found"
  | some a =>
    let a2 := applyAgentUpdates a u now
    .ok { st with agents := mapSet st.agents agentId a2, updatedAt := now }

/-- `removeAgent`: returns before any state change when the agent is
absent; the boolean reports whether a change happened. -/
def removeAgentOp (st : ProjectState) (now : Nat) (agentId : String) :
    ProjectState × Bool :=
  match mapGet st.agents agentId with
  | none => (st, false)
  | some _ =>
    ({ st with agents := mapDelete st.agents agentId, updatedAt := now },
     true)

/-- `createTask`: fills defaults and inserts into the task map. -/
def createTaskOp (st : ProjectState) (ctr now : Nat) (d : TaskData) :
    Task × ProjectState × Nat :=
  let (tid, ctr2) := freshId d.id ctr
  let task : Task :=
    { id := tid
      title := jsOrString d.title "Untitled Task"
      description := jsOrString d.description ""
      assignedTo := d.assignedTo
      status := jsOrString d.status "todo"
      priority := jsOrString d.priority "medium"
      dependencies := d.dependencies.getD []
      estimatedHours := d.estimatedHours
      actualHours := d.actualHours
      createdAt := now
      updatedAt := now
      tags := d.tags.getD [] }
  (task,
   { st with tasks := mapSet st.tasks tid task, updatedAt := now },
   ctr2)

/-- `Object.assign(task, updates, \x7b updatedAt: Date.now() \x7d)`. -/
def applyTaskUpdates (t : Task) (u : TaskUpdates) (now : Nat) : Task :=
  { id := u.id.getD t.id
    title := u.title.getD t.title
    description := u.description.getD t.description
    assignedTo := match u.assignedTo with
      | some a => some a
      | none => t.assignedTo
    status := u.status.getD t.status
    priority := u.priority.getD t.priority
    dependencies := u.dependencies.getD t.dependencies
    estimatedHours := match u.estimatedHours with
      | some h => some h
      | none => t.estimatedHours
    actualHours := match u.actualHours with
      | some h => some h
      | none => t.actualHours
    createdAt := u.createdAt.getD t.createdAt
    updatedAt := now
    tags := u.tags.getD t.tags }

/-- `sendMessage` message construction (defaults, fresh id, timestamp). -/
def buildMessage (ctr now : Nat) (d : MessageData) : Message × Nat :=
  let (mid, ctr2) := freshId d.id ctr
  ({ id := mid
     agentId := jsOrString d.agentId "system"
     type := jsOrString d.type "chat"
     content := jsOrString d.content ""
     metadata := d.metadata
     timestamp := now }, ctr2)

/-- `sendMessage`: appends the message and trims the history with
`slice(-1000)` once it exceeds 1000 entries. -/
def sendMessageOp (st : ProjectState) (ctr now : Nat) (d : MessageData) :
    Message × ProjectState × Nat :=
  let (m, ctr2) := buildMessage ctr now d
  let h := st.messageHistory ++ [m]
  let h2 := if h.length > 1000 then jsSliceFrom (-1000) h else h
  (m, { st with messageHistory := h2, updatedAt := now }, ctr2)

/-- `notifyTaskCompletion` message payload. -/
def completionMessageData (t : Task) : MessageData :=
  { type := some "system"
    content := some ("🎉 Task \"" ++ t.title ++ "\" has been completed!")
    metadata := some [("taskId", t.id), ("event", "task_completed")] }

/-- `notifyTaskBlocked` message payload. -/
def blockedMessageData (t : Task) : MessageData :=
  { type := some "system"
    content := some ("⚠️ Task \"" ++ t.title ++ "\" is blocked and needs attention.")
    metadata := some [("taskId", t.id), ("event", "task_blocked")] }

/-- `updateTask`: throws `"Task not found"` if absent; otherwise overlays
fields, broadcasts `task.updated`, and emits a gated system message when
the update sets status `completed` or `blocked`. Returns the new state,
counter, broadcast events in order, and the number of snapshot persists. -/
def updateTaskOp (st : ProjectState) (ctr now : Nat) (taskId : String)
    (u : TaskUpdates) :
    Except String (ProjectState × Nat × List Event × Nat) :=
  match mapGet st.tasks taskId with
  | none => .error "Task not found"
  | some t =>
    let t2 := applyTaskUpdates t u now
    let st1 := { st with tasks := mapSet st.tasks taskId t2, updatedAt := now }
    if u.status = some "completed" then
      if st1.settings.notificationSettings.onTaskComplete then
        let (m, st2, ctr2) := sendMessageOp st1 ctr now (completionMessageData t2)
        .ok (st2, ctr2, [.taskUpdated taskId, .messageNew m.id], 2)
      else .ok (st1, ctr, [.taskUpdated taskId], 1)
    else if u.status = some "blocked" then
      if st1.settings.notificationSettings.onBlocker then
        let (m, st2, ctr2) := sendMessageOp st1 ctr now (blockedMessageData t2)
        .ok (st2, ctr2, [.taskUpdated taskId, .messageNew m.id], 2)
      else .ok (st1, ctr, [.taskUpdated taskId], 1)
    else .ok (st1, ctr, [.taskUpdated taskId], 1)

/-- `deleteTask`: unconditional `Map.delete`, then refresh `updatedAt`. -/
def deleteTaskOp (st : ProjectState) (now : Nat) (taskId : String) :
    ProjectState :=
  { st with tasks := mapDelete st.tasks taskId, updatedAt := now }

/-- `updateContext`: `Object.assign` shallow merge of the patch into the
context record. -/
def updateContextOp (st : ProjectState) (now : Nat)
    (patch : List (String × String)) : ProjectState :=
  { st with
      context := patch.foldl (fun c kv => mapSet c kv.1 kv.2) st.context
      updatedAt := now }

/-! ### Command step machine

One `World` bundles the in-memory state with the id-generation counter and
the clock reading used for `Date.now()`. `stepEff` dispatches a canonical
command exactly as the coordinator does, reporting the broadcast events,
the number of synchronous snapshot persists, a thrown error (if any), and
private `welcome` recipients. -/

structure World where
  st : ProjectState
  ctr : Nat
  now : Nat
deriving DecidableEq

/-- The canonical command set of the coordinator (both transports dispatch
into these). -/
inductive Command where
  | init (d : InitData)
  | register (d : AgentData) (ws : Option Nat)
  | updAgent (agentId : String) (u : AgentUpdates)
  | rmAgent (agentId : String)
  | mkTask (d : TaskData)
  | updTask (taskId : String) (u : TaskUpdates)
  | rmTask (taskId : String)
  | send (d : MessageData)
  | ctx (patch : List (String × String))
deriving DecidableEq

structure StepResult where
  world : World
  events : List Event
  persists : Nat
  error : Option String
  welcomes : List Nat
deriving DecidableEq

def stepEff (w : World) : Command → StepResult
  | .init d =>
    let (st2, ctr2) := initializeProjectOp w.st w.ctr w.now d
    ⟨⟨st2, ctr2, w.now⟩, [.projectInitialized], 1, none, []⟩
  | .register d ws =>
    let (a, st2, ctr2) := registerAgentOp w.st w.ctr w.now d ws
    ⟨⟨st2, ctr2, w.now⟩, [.agentJoined a.id], 1, none, ws.toList⟩
  | .updAgent agentId u =>
    match updateAgentOp w.st w.now agentId u with
    | .ok st2 => ⟨⟨st2, w.ctr, w.now⟩, [.agentUpdated agentId], 1, none, []⟩
    | .error e => ⟨w, [], 0, some e, []⟩
  | .rmAgent agentId =>
    let (st2, changed) := removeAgentOp w.st w.now agentId
    if changed then ⟨⟨st2, w.ctr, w.now⟩, [.agentLeft agentId], 1, none, []⟩
    else ⟨w, [], 0, none, []⟩
  | .mkTask d =>
    let (t, st2, ctr2) := createTaskOp w.st w.ctr w.now d
    ⟨⟨st2, ctr2, w.now⟩, [.taskCreated t.id], 1, none, []⟩
  | .updTask taskId u =>
    match updateTaskOp w.st w.ctr w.now taskId u with
    | .ok (st2, ctr2, evs, nPersists) =>
      ⟨⟨st2, ctr2, w.now⟩, evs, nPersists, none, []⟩
    | .error e => ⟨w, [], 0, some e, []⟩
  | .rmTask taskId =>
    ⟨⟨deleteTaskOp w.st w.now taskId, w.ctr, w.now⟩, [.taskDeleted taskId],
     1, none, []⟩
  | .send d =>
    let (m, st2, ctr2) := sendMessageOp w.st w.ctr w.now d
    ⟨⟨st2, ctr2, w.now⟩, [.messageNew m.id], 1, none, []⟩
  | .ctx patch =>
    ⟨⟨updateContextOp w.st w.now patch, w.ctr, w.now⟩, [.contextUpdated],
     1, none, []⟩

def step (w : World) (c : Command) : World := (stepEff w c).world

def run (w : World) (cs : List Command) : World := cs.foldl step w

/-! ### Identifier uniqueness bookkeeping -/

def msgIds (h : List Message) : List String := h.map Message.id

/-- The id `sendMessage` will give the next message. -/
def effMsgId (ctr : Nat) (d : MessageData) : String := (freshId d.id ctr).1

/-- All identifiers are unique within the owning state: agent map keys,
task map keys, and message ids. -/
def UniqueIds (st : ProjectState) : Prop :=
  (mapKeys st.agents).Nodup ∧ (mapKeys st.tasks).Nodup ∧
    (msgIds st.messageHistory).Nodup

instance (st : ProjectState) : Decidable (UniqueIds st) :=
  inferInstanceAs (Decidable (_ ∧ _ ∧ _))

/-- Every message id a command inserts is new to the history. This is what
fresh UUID generation gives in practice, and what a caller-supplied id can
violate. -/
def stepFreshB (w : World) : Command → Bool
  | .send d => decide (effMsgId w.ctr d ∉ msgIds w.st.messageHistory)
  | .updTask _ u =>
    if u.status = some "completed" ∨ u.status = some "blocked" then
      decide (genId w.ctr ∉ msgIds w.st.messageHistory)
    else true
  | .init d =>
    match d.messageHistory with
    | some h => decide (msgIds h).Nodup
    | none => true
  | _ => true

def traceFreshB : World → List Command → Bool
  | _, [] => true
  | w, c :: cs => stepFreshB w c && traceFreshB (step w c) cs

/-! ### Snapshot persistence and query serialization -/

/-- The object `persistState` writes to durable storage: the state with the
agent and task maps materialized as entry lists. Note the `Agent` values go
in untouched — `serializeAgent` is NOT applied on this path. -/
structure Snapshot where
  id : String
  name : String
  description : String
  status : String
  agents : List (String × Agent)
  tasks : List (String × Task)
  files : List String
  context : List (String × String)
  messageHistory : List Message
  createdAt : Nat
  updatedAt : Nat
  settings : ProjectSettings
deriving DecidableEq

def persistSnapshot (st : ProjectState) : Snapshot :=
  { id := st.id, name := st.name, description := st.description
    status := st.status
    agents := st.agents
    tasks := st.tasks
    files := st.files, context := st.context
    messageHistory := st.messageHistory
    createdAt := st.createdAt, updatedAt := st.updatedAt
    settings := st.settings }

/-- `new Map(entries)`: replays the entries with `Map.set` semantics. -/
def mapFromEntries (l : List (String × α)) : List (String × α) :=
  l.foldl (fun m kv => mapSet m kv.1 kv.2) []

/-- The constructor reload path: rebuilds the agent and task maps from
their serialized entry lists, all scalar fields spread through. -/
def loadSnapshot (snap : Snapshot) : ProjectState :=
  { id := snap.id, name := snap.name, description := snap.description
    status := snap.status
    agents := mapFromEntries snap.agents
    tasks := mapFromEntries snap.tasks
    files := snap.files, context := snap.context
    messageHistory := snap.messageHistory
    createdAt := snap.createdAt, updatedAt := snap.updatedAt
    settings := snap.settings }

/-- `serializeAgent`: the agent minus its `websocket` reference. -/
structure SerializedAgent where
  id : String
  name : String
  role : String
  model : String
  status : String
  currentTask : Option String
  lastSeen : Nat
  capabilities : List String
  preferences : List (String × String)
deriving DecidableEq

def serializeAgent (a : Agent) : SerializedAgent :=
  { id := a.id, name := a.name, role := a.role, model := a.model
    status := a.status, currentTask := a.currentTask, lastSeen := a.lastSeen
    capabilities := a.capabilities, preferences := a.preferences }

/-- `serializeState`: agents and tasks materialized as value lists, with
the `websocket` reference stripped from each agent. -/
structure SerializedState where
  id : String
  name : String
  description : String
  status : String
  agents : List SerializedAgent
  tasks : List Task
  files : List String
  context : List (String × String)
  messageHistory : List Message
  createdAt : Nat
  updatedAt : Nat
  settings : ProjectSettings
deriving DecidableEq

def serializeState (st : ProjectState) : SerializedState :=
  { id := st.id, name := st.name, description := st.description
    status := st.status
    agents := (mapValues st.agents).map serializeAgent
    tasks := mapValues st.tasks
    files := st.files, context := st.context
    messageHistory := st.messageHistory
    createdAt := st.createdAt, updatedAt := st.updatedAt
    settings := st.settings }

/-! ### Queries -/

/-- `GET /messages?type=&limit=`: optional exact-match type filter (an
empty `type` parameter is falsy and filters nothing), then
`messages.slice(-limit)` when `parseInt` produced a number. -/
def handleGetMessages (st : ProjectState) (type : Option String)
    (limit : Option Int) : List Message :=
  let ms := match type with
    | some t =>
      if t = "" then st.messageHistory
      else st.messageHistory.filter (fun m => m.type == t)
    | none => st.messageHistory
  match limit with
  | some n => jsSliceFrom (-n) ms
  | none => ms

/-- A `reduce`-built occurrence-count record (`byRole` and friends). -/
def recordIncr (acc : List (String × Nat)) (k : String) :
    List (String × Nat) :=
  mapSet acc k ((mapGet acc k).getD 0 + 1)

/-- `calculateMessageRate`: messages in the last hour. -/
def calculateMessageRate (history : List Message) (now : Nat) : Nat :=
  (history.filter (fun m => (m.timestamp : Int) > (now : Int) - 3600000)).length

/-- JS truthiness of the optional `actualHours` number: absent and `0` are
both falsy. -/
def truthyHours : Option Rat → Bool
  | none => false
  | some x => x != 0

/-- `calculateAverageTaskTime`: average `actualHours` over tasks whose
status is `completed` and whose `actualHours` is truthy. -/
def calculateAverageTaskTime (tasks : List Task) : Rat :=
  let completed :=
    tasks.filter (fun t => t.status == "completed" && truthyHours t.actualHours)
  if completed.length = 0 then 0
  else (completed.foldl (fun sum t => sum + t.actualHours.getD 0) 0) /
    (completed.length : Rat)

/-- `GET /analytics` result. -/
structure Analytics where
  agentsTotal : Nat
  agentsActive : Nat
  agentsByRole : List (String × Nat)
  agentsByModel : List (String × Nat)
  tasksTotal : Nat
  tasksCompleted : Nat
  tasksInProgress : Nat
  tasksBlocked : Nat
  tasksByPriority : List (String × Nat)
  messagesPerHour : Nat
  averageTaskTime : Rat
  completionRate : Rat
deriving DecidableEq

def generateAnalytics (st : ProjectState) (now : Nat) : Analytics :=
  let agents := mapValues st.agents
  let tasks := mapValues st.tasks
  { agentsTotal := agents.length
    agentsActive := (agents.filter (fun a => a.status == "active")).length
    agentsByRole := agents.foldl (fun acc a => recordIncr acc a.role) []
    agentsByModel := agents.foldl (fun acc a => recordIncr acc a.model) []
    tasksTotal := tasks.length
    tasksCompleted := (tasks.filter (fun t => t.status == "completed")).length
    tasksInProgress :=
      (tasks.filter (fun t => t.status == "in-progress")).length
    tasksBlocked := (tasks.filter (fun t => t.status == "blocked")).length
    tasksByPriority := tasks.foldl (fun acc t => recordIncr acc t.priority) []
    messagesPerHour := calculateMessageRate st.messageHistory now
    averageTaskTime := calculateAverageTaskTime tasks
    completionRate :=
      if tasks.length > 0 then
        ((tasks.filter (fun t => t.status == "completed")).length : Rat) /
          (tasks.length : Rat)
      else 0 }

/-! ### Dual transports: HTTP `PUT` handlers and WebSocket frames -/

/-- JS `hay.includes(needle)` substring test. -/
def containsSub (needle hay : String) : Bool :=
  decide (needle.toList <:+: hay.toList)

structure HttpResponse where
  status : Nat
  /-- Response body; a 200 JSON success body is abstracted to the string
  `"success"`. -/
  body : String
deriving DecidableEq

/-- `PUT /agents/:id` (`handlePut`): not-found errors from `updateAgent`
become a 404; anything else is rethrown. -/
def httpPutAgent (w : World) (agentId : String) (u : AgentUpdates) :
    HttpResponse × World :=
  match updateAgentOp w.st w.now agentId u with
  | .ok st2 => (⟨200, "success"⟩, ⟨st2, w.ctr, w.now⟩)
  | .error e =>
    if containsSub "not found" e then (⟨404, "Not found"⟩, w)
    else (⟨500, e⟩, w)

/-- `PUT /tasks/:id` (`handlePut`). -/
def httpPutTask (w : World) (taskId : String) (u : TaskUpdates) :
    HttpResponse × World :=
  match updateTaskOp w.st w.ctr w.now taskId u with
  | .ok (st2, ctr2, _, _) => (⟨200, "success"⟩, ⟨st2, ctr2, w.now⟩)
  | .error e =>
    if containsSub "not found" e then (⟨404, "Not found"⟩, w)
    else (⟨500, e⟩, w)

/-- Frames the coordinator can send back on the same streaming
connection. -/
inductive WsFrame where
  | error (message : String)
  | welcome (projectState : SerializedState) (agentId : String)
deriving DecidableEq

/-- Parsed inbound frames, by their `type` tag; each payload field is
`Option`-wrapped because the router checks presence itself. -/
inductive WsIncoming where
  | agentRegister (agent : Option AgentData)
  | agentUpdate (agentId : Option String) (updates : Option AgentUpdates)
  | taskCreate (task : Option TaskData)
  | taskUpdate (taskId : Option String) (updates : Option TaskUpdates)
  | messageSend (message : Option MessageData)
  | contextUpdate (context : Option (List (String × String)))
  | unknown
deriving DecidableEq

/-- The outer catch of `handleWebSocketMessage`: not-found and
missing-field messages are echoed, anything else is reported
generically. -/
def wsCaughtMessage (e : String) : String :=
  if containsSub "not found" e || containsSub "missing" e then e
  else "An internal server error occurred."

/-- `handleWebSocketMessage` on one parsed frame from socket `ws`:
returns the new world, the frames sent back on `ws`, the broadcast
events, and whether the connection was closed (the handler never closes
it). -/
def wsHandle (w : World) (ws : Nat) :
    WsIncoming → World × List WsFrame × List Event × Bool
  | .agentRegister d =>
    match d with
    | none => (w, [.error (wsCaughtMessage "Agent data is missing")], [], false)
    | some d =>
      let (a, st2, ctr2) := registerAgentOp w.st w.ctr w.now d (some ws)
      (⟨st2, ctr2, w.now⟩, [.welcome (serializeState st2) a.id],
       [.agentJoined a.id], false)
  | .agentUpdate agentId updates =>
    match agentId, updates with
    | some aid, some u =>
      if aid = "" then
        (w, [.error (wsCaughtMessage "Agent ID or updates are missing")], [],
         false)
      else
        match updateAgentOp w.st w.now aid u with
        | .ok st2 => (⟨st2, w.ctr, w.now⟩, [], [.agentUpdated aid], false)
        | .error e =>
          if containsSub "not found" e then
            (w, [.error "Agent not found"], [], false)
          else (w, [.error (wsCaughtMessage e)], [], false)
    | _, _ =>
      (w, [.error (wsCaughtMessage "Agent ID or updates are missing")], [],
       false)
  | .taskCreate d =>
    match d with
    | none => (w, [.error (wsCaughtMessage "Task data is missing")], [], false)
    | some d =>
      let (t, st2, ctr2) := createTaskOp w.st w.ctr w.now d
      (⟨st2, ctr2, w.now⟩, [], [.taskCreated t.id], false)
  | .taskUpdate taskId updates =>
    match taskId, updates with
    | some tid, some u =>
      if tid = "" then
        (w, [.error (wsCaughtMessage "Task ID or updates are missing")], [],
         false)
      else
        match updateTaskOp w.st w.ctr w.now tid u with
        | .ok (st2, ctr2, evs, _) => (⟨st2, ctr2, w.now⟩, [], evs, false)
        | .error e =>
          if containsSub "not found" e then
            (w, [.error "Task not found"], [], false)
          else (w, [.error (wsCaughtMessage e)], [], false)
    | _, _ =>
      (w, [.error (wsCaughtMessage "Task ID or updates are missing")], [],
       false)
  | .messageSend d =>
    match d with
    | none =>
      (w, [.error (wsCaughtMessage "Message data is missing")], [], false)
    | some d =>
      let (m, st2, ctr2) := sendMessageOp w.st w.ctr w.now d
      (⟨st2, ctr2, w.now⟩, [], [.messageNew m.id], false)
  | .contextUpdate p =>
    match p with
    | none =>
      (w, [.error (wsCaughtMessage "Context data is missing")], [], false)
    | some p =>
      (⟨updateContextOp w.st w.now p, w.ctr, w.now⟩, [], [.contextUpdated],
       false)
  | .unknown => (w, [.error "Unknown message type"], [], false)

/-! ### Project Directory (`DatabaseService.ts`) -/

/-- One row of the `projects` table (`interface DBProject`). Nullable
columns are `Option`. -/
structure DBProject where
  id : String
  name : String
  description : Option String
  status : Option String
  created_at : Nat
  updated_at : Nat
deriving DecidableEq

/-- The API-level project record (`types/Project.ts`). -/
structure Project where
  id : String
  name : String
  description : String
  status : String
  createdAt : Nat
  updatedAt : Nat
deriving DecidableEq

/-- `mapProject`: row to record, defaulting nulls and scaling the Unix
seconds to milliseconds. -/
def mapProject (row : DBProject) : Project :=
  { id := row.id
    name := row.name
    description := row.description.getD ""
    status := row.status.getD "planning"
    createdAt := row.created_at * 1000
    updatedAt := row.updated_at * 1000 }

/-- The `projects` table contents, in row order. -/
abbrev Store := List DBProject

def getProjectRow (store : Store) (id : String) : Option DBProject :=
  store.find? (fun r => r.id == id)

/-- `getProject`: first row matching the id, mapped, else `null`. -/
def getProject (store : Store) (id : String) : Option Project :=
  (getProjectRow store id).map mapProject

/-- The update payload: each recognized column is present or absent
(`hasOwnProperty`), and a present `description` may itself be an explicit
`null`. -/
structure ProjectPatch where
  name : Option String := none
  description : Option (Option String) := none
  status : Option String := none
deriving DecidableEq

def validStatuses : List String :=
  ["planning", "active", "paused", "completed", "archived"]

/-- `data.status && !validStatuses.includes(data.status)`. -/
def statusInvalid (d : ProjectPatch) : Bool :=
  match d.status with
  | some s => s != "" && !(validStatuses.contains s)
  | none => false

/-- How many recognized fields the patch carries (the `sets` array
length). -/
def patchFieldCount (d : ProjectPatch) : Nat :=
  (if d.name.isSome then 1 else 0) +
    (if d.description.isSome then 1 else 0) +
    (if d.status.isSome then 1 else 0)

/-- The effect of the generated `UPDATE` statement on one matching row. -/
def applyProjectPatch (r : DBProject) (d : ProjectPatch) (now : Nat) :
    DBProject :=
  { r with
      name := d.name.getD r.name
      description := match d.description with
        | some v => v
        | none => r.description
      status := match d.status with
        | some s => some s
        | none => r.status
      updated_at := now }

/-- `DatabaseService.updateProject`: validates the status, collects the
present recognized fields, short-circuits to a plain read when none are
present, and otherwise issues one `UPDATE` then re-reads. The `Nat`
component counts issued write statements. -/
def updateProject (store : Store) (now : Nat) (id : String)
    (d : ProjectPatch) : Except String (Option Project × Store × Nat) :=
  if statusInvalid d then .error "Invalid status"
  else if patchFieldCount d = 0 then .ok (getProject store id, store, 0)
  else
    let store2 :=
      store.map (fun r => if r.id = id then applyProjectPatch r d now else r)
    .ok (getProject store2 id, store2, 1)

/-! ### Concrete example worlds used by witnesses and counterexamples -/

def w0 : World := ⟨defaultProjectState 0, 0, 0⟩

/-- Three messages of mixed type sent through the coordinator. -/
def exMixedw : World :=
  run w0
    [.send { id := some "m1", type := some "chat" },
     .send { id := some "m2", type := some "status" },
     .send { id := some "m3", type := some "chat" }]

/-! ### Supporting lemmas -/

theorem genId_ne_empty (n : Nat) : genId n ≠ "" := by
  intro h
  have hd := congrArg String.data h
  rw [genId] at hd
  simp [String.data_append] at hd

theorem jsSliceFrom_zero (l : List α) : jsSliceFrom 0 l = l := by
  show List.drop _ l = l
  norm_num

/-- Spec-side phrase for C5: the most recent `n` messages of the history
after the exact-match type filter (a tail slice). -/
def mostRecentAfterFilter (st : ProjectState) (t : String) (n : Nat) :
    List Message :=
  takeLast n (st.messageHistory.filter (fun m => m.type == t))

/-- C9: a supplied `limit` of 0 slices by `-0 = 0` and therefore returns
the entire type-filtered message history — a zero limit behaves exactly
like no limit at the public interface. -/
theorem handleGetMessages_zero_limit (st : ProjectState) (t : Option String) :
    handleGetMessages st t (some 0) = handleGetMessages st t none := by
  unfold handleGetMessages
  have h0 : (-(0 : Int)) = 0 := by norm_num
  simp only [h0]
  exact jsSliceFrom_zero _

/-- C5 counterexample: with a supplied limit of `N = 0` the query returns
the whole filtered history, not the most recent 0 messages, so the claim
quantified over every supplied limit fails at `N = 0`. -/
theorem handleGetMessages_zero_not_mostRecent :
    handleGetMessages exMixedw.st (some "chat") (some 0) ≠
      mostRecentAfterFilter exMixedw.st "chat" 0 := by
  decide

/-- Spec-side phrase for the amended C5: the most recent `n` messages of
the history after applying the optional exact-match type filter — a query
without a type parameter, or with the falsy empty value, filters
nothing. -/
def mostRecentFiltered (st : ProjectState) (t : Option String) (n : Nat) :
    List Message :=
  takeLast n (match t with
    | some ty =>
      if ty = "" then st.messageHistory
      else st.messageHistory.filter (fun m => m.type == ty)
    | none => st.messageHistory)

/-- C5 (amended): for every supplied positive limit `N` and every optional
type filter (absent, empty, or an exact-match value), the result is the
most recent `N` messages after the filter — a tail slice, never the
oldest `N`. -/
theorem handleGetMessages_limit_mostRecent (st : ProjectState)
    (t : Option String) (n : Nat) (hn : 1 ≤ n) :
    handleGetMessages st t (some ((n : Nat) : Int)) =
      mostRecentFiltered st t n := by
  unfold handleGetMessages mostRecentFiltered
  exact jsSliceFrom_neg hn _

/-- C5 witness: after sending three messages of mixed type, querying
`type=chat` with `limit=1` returns exactly the single most recent chat
message. -/
theorem handleGetMessages_limit_mostRecent_witness :
    1 ≤ 1 ∧
      handleGetMessages exMixedw.st (some "chat") (some ((1 : Nat) : Int)) =
        [⟨"m3", "system", "chat", "", none, 0⟩] := by
  refine ⟨by decide, ?_⟩
  rw [handleGetMessages_limit_mostRecent exMixedw.st (some "chat") 1
    (by decide)]
  decide

/-- C6: every registration returns an agent whose status is exactly
`active` whatever status the input carried, with a non-empty id that is
freshly generated when none was supplied. -/
theorem registerAgent_status_active (st : ProjectState) (ctr now : Nat)
    (d : AgentData) (ws : Option Nat) :
    (registerAgentOp st ctr now d ws).1.status = "active" ∧
    (registerAgentOp st ctr now d ws).1.id ≠ "" ∧
    (d.id = none → (registerAgentOp st ctr now d ws).1.id = genId ctr) := by
  rcases hd : d.id with _ | s
  · refine ⟨rfl, ?_, fun _ => ?_⟩ <;>
      simp [registerAgentOp, freshId, hd, genId_ne_empty]
  · by_cases hs : s = ""
    · subst hs
      refine ⟨rfl, ?_, fun hnone => ?_⟩
      · simp [registerAgentOp, freshId, hd, genId_ne_empty]
      · cases hnone
    · refine ⟨rfl, ?_, fun hnone => ?_⟩
      · simp [registerAgentOp, freshId, hd, hs]
      · cases hnone

/-- C6 witness: registering with an explicit `offline` input status and no
id still yields status `active` and the freshly generated id. -/
theorem registerAgent_status_active_witness :
    ({ status := some "offline" } : AgentData).id = none ∧
      (registerAgentOp (defaultProjectState 0) 0 5
          { status := some "offline" } none).1.status = "active" ∧
      (registerAgentOp (defaultProjectState 0) 0 5
          { status := some "offline" } none).1.id = genId 0 := by
  have h := registerAgent_status_active (defaultProjectState 0) 0 5
    { status := some "offline" } none
  exact ⟨rfl, h.1, h.2.2 rfl⟩

/-- C2: updating a nonexistent agent or task yields NotFound on both
transports with the transport-appropriate encoding — a 404 `Not found`
response on the request/response surface and an `Agent not found` /
`Task not found` error frame on the streaming surface, the connection
staying open and the state untouched in every case. Ids are non-empty
because an empty path segment never reaches `handlePut` and an empty
frame id is falsy (reported as missing, not as NotFound). -/
theorem update_missing_yields_notFound (w : World) (aid tid : String)
    (ua : AgentUpdates) (ut : TaskUpdates)
    (ha : mapGet w.st.agents aid = none) (ht : mapGet w.st.tasks tid = none)
    (haid : aid ≠ "") (htid : tid ≠ "") :
    httpPutAgent w aid ua = (⟨404, "Not found"⟩, w) ∧
    httpPutTask w tid ut = (⟨404, "Not found"⟩, w) ∧
    wsHandle w 0 (.agentUpdate (some aid) (some ua)) =
      (w, [.error "Agent not found"], [], false) ∧
    wsHandle w 0 (.taskUpdate (some tid) (some ut)) =
      (w, [.error "Task not found"], [], false) := by
  have hA : updateAgentOp w.st w.now aid ua = .error "Agent not found" := by
    simp [updateAgentOp, ha]
  have hT : updateTaskOp w.st w.ctr w.now tid ut = .error "Task not found" := by
    simp [updateTaskOp, ht]
  have hcA : containsSub "not found" "Agent not found" = true := by decide
  have hcT : containsSub "not found" "Task not found" = true := by decide
  refine ⟨?_, ?_, ?_, ?_⟩
  · simp [httpPutAgent, hA, hcA]
  · simp [httpPutTask, hT, hcT]
  · simp [wsHandle, haid, hA, hcA]
  · simp [wsHandle, htid, hT, hcT]

/-- C2 witness: concrete missing ids on the empty default state. -/
theorem update_missing_yields_notFound_witness :
    mapGet w0.st.agents "a" = none ∧ mapGet w0.st.tasks "t" = none ∧
      httpPutAgent w0 "a" {} = (⟨404, "Not found"⟩, w0) ∧
      wsHandle w0 0 (.taskUpdate (some "t") (some {})) =
        (w0, [.error "Task not found"], [], false) := by
  have h := update_missing_yields_notFound w0 "a" "t" {} {}
    (by decide) (by decide) (by decide) (by decide)
  exact ⟨by decide, by decide, h.1, h.2.2.2⟩

/-- C8: updating an existing project with a patch carrying zero recognized
fields short-circuits to a plain read: it returns the unchanged current
record, leaves the store as it was, and issues no write statement. -/
theorem updateProject_empty_patch_noop (store : Store) (now : Nat)
    (id : String) (p : Project) (h : getProject store id = some p) :
    updateProject store now id {} = .ok (some p, store, 0) := by
  unfold updateProject
  rw [if_neg (by decide : ¬(statusInvalid {} = true)),
    if_pos (by decide : patchFieldCount {} = 0), h]

/-- C8 witness: a one-row store. -/
theorem updateProject_empty_patch_noop_witness :
    getProject [⟨"p1", "demo", some "d", some "active", 10, 20⟩] "p1" =
        some ⟨"p1", "demo", "d", "active", 10000, 20000⟩ ∧
      updateProject [⟨"p1", "demo", some "d", some "active", 10, 20⟩] 99 "p1" {} =
        .ok (some ⟨"p1", "demo", "d", "active", 10000, 20000⟩,
          [⟨"p1", "demo", some "d", some "active", 10, 20⟩], 0) := by
  refine ⟨by decide, ?_⟩
  exact updateProject_empty_patch_noop _ 99 "p1" _ (by decide)

/-- C10: deleting an absent task still refreshes `updatedAt`, persists a
snapshot, and broadcasts `task.deleted`; removing an absent agent returns
before any state change, with no persist and no broadcast. -/
theorem deleteTask_removeAgent_absent_asymmetry (w : World) (tid aid : String)
    (ht : mapGet w.st.tasks tid = none) (ha : mapGet w.st.agents aid = none) :
    stepEff w (.rmTask tid) =
      ⟨⟨{ w.st with updatedAt := w.now }, w.ctr, w.now⟩, [.taskDeleted tid],
        1, none, []⟩ ∧
    stepEff w (.rmAgent aid) = ⟨w, [], 0, none, []⟩ := by
  constructor
  · have hmem := mapGet_eq_none_iff.mp ht
    simp [stepEff, deleteTaskOp, mapDelete_of_not_mem hmem]
  · simp [stepEff, removeAgentOp, ha]

/-- C10 witness: the default world holds neither task `t` nor agent `a`. -/
theorem deleteTask_removeAgent_absent_asymmetry_witness :
    mapGet w0.st.tasks "t" = none ∧ mapGet w0.st.agents "a" = none ∧
      stepEff w0 (.rmTask "t") =
        ⟨⟨{ w0.st with updatedAt := w0.now }, w0.ctr, w0.now⟩,
          [.taskDeleted "t"], 1, none, []⟩ ∧
      stepEff w0 (.rmAgent "a") = ⟨w0, [], 0, none, []⟩ := by
  have h := deleteTask_removeAgent_absent_asymmetry w0 "t" "a"
    (by decide) (by decide)
  exact ⟨by decide, by decide, h.1, h.2⟩

/-- The state after an agent registers over the streaming surface with
live connection handle 7. -/
def exC1st : ProjectState :=
  (registerAgentOp (defaultProjectState 0) 0 5
    { id := some "a1", name := some "Alice" } (some 7)).2.1

/-- C1: reloading the persisted snapshot reconstructs the maps and scalar
fields identically, and the query-serialization path strips the websocket
— but the snapshot `persistState` writes DOES carry the live connection
handle (`serializeAgent` is not applied on the persistence path), contra
the never-persisted guarantee. -/
theorem persistState_snapshot_carries_websocket :
    loadSnapshot (persistSnapshot exC1st) = exC1st ∧
    (persistSnapshot exC1st).agents.map (fun p => p.2.websocket) = [some 7] ∧
    (serializeState exC1st).agents.map SerializedAgent.id = ["a1"] := by
  decide

/-- Spec-side phrase for C7 as stated: the average of `actualHours` over
exactly the completed tasks that have the field set (zero when none
exists). -/
def specAvgOverSet (tasks : List Task) : Rat :=
  let chosen :=
    tasks.filter (fun t => t.status == "completed" && t.actualHours.isSome)
  if chosen.length = 0 then 0
  else (chosen.map (fun t => t.actualHours.getD 0)).sum / (chosen.length : Rat)

/-- Spec-side phrase for the amended C7: the average of `actualHours` over
the completed tasks whose `actualHours` is set to a nonzero value. -/
def specAvgOverNonzero (tasks : List Task) : Rat :=
  let chosen := tasks.filter (fun t =>
    decide (t.status = "completed" ∧ t.actualHours ≠ none ∧
      t.actualHours ≠ some 0))
  if chosen.length = 0 then 0
  else (chosen.map (fun t => t.actualHours.getD 0)).sum / (chosen.length : Rat)

/-- Spec-side phrase for the completion rate: completed over total, zero
when there are no tasks. -/
def specCompletionRate (tasks : List Task) : Rat :=
  if tasks.length = 0 then 0
  else ((tasks.filter (fun t => decide (t.status = "completed"))).length : Rat) /
    (tasks.length : Rat)

/-- Two completed tasks, one with `actualHours` set to 0 (set but falsy)
and one set to 4. -/
def exC7Tasks : List Task :=
  [{ id := "t1", title := "a", description := "", assignedTo := none
     status := "completed", priority := "medium", dependencies := []
     estimatedHours := none, actualHours := some 0
     createdAt := 0, updatedAt := 0, tags := [] },
   { id := "t2", title := "b", description := "", assignedTo := none
     status := "completed", priority := "medium", dependencies := []
     estimatedHours := none, actualHours := some 4
     createdAt := 0, updatedAt := 0, tags := [] }]

/-- C7 counterexample: a completed task with `actualHours` set to `0` is
excluded by the truthiness filter, so the computed average (4) differs
from the claimed average over all completed tasks with the field set
(2). -/
theorem calculateAverageTaskTime_not_avgOverSet :
    calculateAverageTaskTime exC7Tasks ≠ specAvgOverSet exC7Tasks := by
  have h1 : calculateAverageTaskTime exC7Tasks = 4 := by
    norm_num [calculateAverageTaskTime, exC7Tasks, truthyHours]
  have h2 : specAvgOverSet exC7Tasks = 2 := by
    norm_num [specAvgOverSet, exC7Tasks]
  rw [h1, h2]
  norm_num

theorem avgFilterPred_eq (t : Task) :
    (t.status == "completed" && truthyHours t.actualHours) =
      decide (t.status = "completed" ∧ t.actualHours ≠ none ∧
        t.actualHours ≠ some 0) := by
  cases ho : t.actualHours with
  | none => simp [truthyHours, ho]
  | some x =>
    rw [Bool.eq_iff_iff]
    simp [truthyHours, ho, bne_iff_ne]

theorem foldl_add_hours (l : List Task) (a : Rat) :
    l.foldl (fun s t => s + t.actualHours.getD 0) a =
      a + (l.map (fun t => t.actualHours.getD 0)).sum := by
  induction l generalizing a with
  | nil => simp
  | cons t l ih => simp [ih, add_assoc]

/-- C7 (amended): the analytics average is the average `actualHours` over
the completed tasks whose `actualHours` is set and nonzero (zero when no
such task exists), and the completion rate is completed over total (zero
when there are no tasks). -/
theorem generateAnalytics_avg_and_rate (st : ProjectState) (now : Nat) :
    (generateAnalytics st now).averageTaskTime =
      specAvgOverNonzero (mapValues st.tasks) ∧
    (generateAnalytics st now).completionRate =
      specCompletionRate (mapValues st.tasks) := by
  constructor
  · show calculateAverageTaskTime (mapValues st.tasks) = _
    unfold calculateAverageTaskTime specAvgOverNonzero
    rw [List.filter_congr (fun t _ => avgFilterPred_eq t)]
    by_cases h :
      ((mapValues st.tasks).filter (fun t =>
        decide (t.status = "completed" ∧ t.actualHours ≠ none ∧
          t.actualHours ≠ some 0))).length = 0
    · rw [if_pos h, if_pos h]
    · rw [if_neg h, if_neg h, foldl_add_hours, zero_add]
  · show (if 0 < (mapValues st.tasks).length then _ else _) = _
    unfold specCompletionRate
    have hfc : (mapValues st.tasks).filter (fun t => t.status == "completed") =
        (mapValues st.tasks).filter (fun t => decide (t.status = "completed")) :=
      List.filter_congr (fun t _ => by rw [Bool.eq_iff_iff]; simp)
    rcases Nat.eq_zero_or_pos (mapValues st.tasks).length with h | h
    · rw [if_neg (by omega), if_pos h]
    · rw [if_pos h, if_neg (by omega), hfc]

/-! ### C4 machinery: the history as a sliding window -/

theorem jsSliceFrom_neg1000 (l : List α) :
    jsSliceFrom (-1000) l = takeLast 1000 l := by
  have h : (-1000 : Int) = -((1000 : Nat) : Int) := by norm_num
  rw [h, jsSliceFrom_neg (by norm_num)]

/-- One `sendMessage` append-and-trim step, on the history alone. -/
def capAppend (h : List Message) (m : Message) : List Message :=
  if (h ++ [m]).length > 1000 then takeLast 1000 (h ++ [m]) else h ++ [m]

def capList (h : List Message) (ms : List Message) : List Message :=
  ms.foldl capAppend h

/-- The messages a list of `sendMessage` payloads constructs, in order;
construction depends only on the counter and clock, never on the
history. -/
def builtMessages : Nat → Nat → List MessageData → List Message
  | _, _, [] => []
  | ctr, now, d :: ds =>
    (buildMessage ctr now d).1 :: builtMessages (buildMessage ctr now d).2 now ds

theorem builtMessages_length (ctr now : Nat) (ds : List MessageData) :
    (builtMessages ctr now ds).length = ds.length := by
  induction ds generalizing ctr with
  | nil => rfl
  | cons d ds ih => simp [builtMessages, ih]

theorem sendMessageOp_eq (st : ProjectState) (ctr now : Nat)
    (d : MessageData) :
    sendMessageOp st ctr now d =
      ((buildMessage ctr now d).1,
       { st with
          messageHistory :=
            capAppend st.messageHistory (buildMessage ctr now d).1
          updatedAt := now },
       (buildMessage ctr now d).2) := by
  rcases hb : buildMessage ctr now d with ⟨m, c2⟩
  simp only [sendMessageOp, hb, capAppend]
  by_cases hl : (st.messageHistory ++ [m]).length > 1000
  · rw [if_pos hl, if_pos hl, jsSliceFrom_neg1000]
  · rw [if_neg hl, if_neg hl]

theorem step_send (w : World) (d : MessageData) :
    step w (.send d) =
      ⟨{ w.st with
          messageHistory :=
            capAppend w.st.messageHistory (buildMessage w.ctr w.now d).1
          updatedAt := w.now },
        (buildMessage w.ctr w.now d).2, w.now⟩ := by
  simp [step, stepEff, sendMessageOp_eq]

theorem run_send_history (ds : List MessageData) :
    ∀ w : World,
      (run w (ds.map Command.send)).st.messageHistory =
        capList w.st.messageHistory (builtMessages w.ctr w.now ds) := by
  induction ds with
  | nil => intro w; rfl
  | cons d ds ih =>
    intro w
    show (run (step w (.send d)) (ds.map Command.send)).st.messageHistory = _
    rw [step_send, ih]
    simp [builtMessages, capList]

theorem capAppend_length_le {h : List Message} (m : Message)
    (_hl : h.length ≤ 1000) : (capAppend h m).length ≤ 1000 := by
  unfold capAppend
  by_cases hc : (h ++ [m]).length > 1000
  · rw [if_pos hc, takeLast_length]; omega
  · rw [if_neg hc]; omega

theorem capList_length_le (ms : List Message) :
    ∀ h : List Message, h.length ≤ 1000 → (capList h ms).length ≤ 1000 := by
  induction ms with
  | nil => intro h hh; exact hh
  | cons m ms ih =>
    intro h hh
    exact ih _ (capAppend_length_le m hh)

/-- Folding `capAppend` over the inserts equals appending everything and
trimming once at the end. -/
theorem capList_eq (ms : List Message) :
    ∀ h : List Message, h.length ≤ 1000 →
      capList h ms =
        if (h ++ ms).length ≤ 1000 then h ++ ms
        else takeLast 1000 (h ++ ms) := by
  induction ms with
  | nil =>
    intro h hh
    simp [capList, hh]
  | cons m ms ih =>
    intro h hh
    show capList (capAppend h m) ms = _
    rw [ih (capAppend h m) (capAppend_length_le m hh)]
    unfold capAppend
    by_cases hc : (h ++ [m]).length > 1000
    · rw [if_pos hc]
      have h1000 : h.length = 1000 := by
        rw [List.length_append, List.length_singleton] at hc
        omega
      have hlen : (takeLast 1000 (h ++ [m])).length = 1000 := by
        rw [takeLast_length, List.length_append]; simp; omega
      by_cases hms : ms = []
      · subst hms
        simp only [List.append_nil]
        rw [if_pos (by omega), if_neg (by simp [List.length_append]; omega)]
      · have hmslen : ms.length ≠ 0 := by
          simpa using fun hz => hms (List.length_eq_zero.mp hz)
        rw [if_neg (by rw [List.length_append, hlen]; omega),
          if_neg (by simp [List.length_append]; omega),
          takeLast_takeLast_append]
        congr 1
        simp
    · rw [if_neg hc]
      have hassoc : (h ++ [m]) ++ ms = h ++ m :: ms := by simp
      rw [hassoc]

/-- C4: after any sequence of `sendMessage` commands the history never
exceeds 1000 entries; and from an empty history, inserting exactly 1001
messages leaves precisely the newest 1000 in insertion order — the
constructed message list with its oldest (first) element dropped. Every
step is a total function: eviction raises no error. -/
theorem messageHistory_bounded (w : World) (ds : List MessageData) :
    (w.st.messageHistory.length ≤ 1000 →
      ((run w (ds.map Command.send)).st.messageHistory).length ≤ 1000) ∧
    (w.st.messageHistory = [] → ds.length = 1001 →
      (run w (ds.map Command.send)).st.messageHistory =
        (builtMessages w.ctr w.now ds).drop 1 ∧
      (builtMessages w.ctr w.now ds).length = 1001) := by
  constructor
  · intro hlen
    rw [run_send_history]
    exact capList_length_le _ _ hlen
  · intro hemp hlen
    have hblen : (builtMessages w.ctr w.now ds).length = ds.length :=
      builtMessages_length _ _ _
    refine ⟨?_, by rw [hblen, hlen]⟩
    rw [run_send_history, hemp, capList_eq _ [] (by simp)]
    rw [if_neg (by simp [hblen, hlen])]
    simp [takeLast, hblen, hlen]

/-- C4 witness: 1001 default messages into the empty default world. -/
theorem messageHistory_bounded_witness :
    w0.st.messageHistory = [] ∧
      (List.replicate 1001 ({} : MessageData)).length = 1001 ∧
      (run w0 ((List.replicate 1001 ({} : MessageData)).map
          Command.send)).st.messageHistory =
        (builtMessages w0.ctr w0.now (List.replicate 1001 {})).drop 1 := by
  refine ⟨rfl, by simp, ?_⟩
  exact ((messageHistory_bounded w0 (List.replicate 1001 {})).2 rfl
    (by simp)).1

/-! ### C3: identifier uniqueness under command traces -/

theorem nodup_msgIds_capAppend {h : List Message} {m : Message}
    (hn : (msgIds h).Nodup) (hf : m.id ∉ msgIds h) :
    (msgIds (capAppend h m)).Nodup := by
  have happ : (msgIds (h ++ [m])).Nodup := by
    unfold msgIds at *
    rw [List.map_append]
    simp [List.nodup_append, hn, hf]
  unfold capAppend
  by_cases hc : (h ++ [m]).length > 1000
  · rw [if_pos hc]
    exact happ.sublist (((takeLast_suffix 1000 (h ++ [m])).sublist).map _)
  · rwa [if_neg hc]

theorem buildMessage_fst_id (ctr now : Nat) (d : MessageData) :
    (buildMessage ctr now d).1.id = effMsgId ctr d := by
  unfold buildMessage effMsgId
  rcases hf : freshId d.id ctr with ⟨mid, c2⟩
  simp [hf]

theorem step_init_st (w : World) (d : InitData) :
    (step w (.init d)).st.agents = w.st.agents ∧
    (step w (.init d)).st.tasks = w.st.tasks ∧
    (step w (.init d)).st.messageHistory =
      d.messageHistory.getD w.st.messageHistory := by
  rcases hf : freshId d.id w.ctr with ⟨pid, c2⟩
  refine ⟨?_, ?_, ?_⟩ <;> simp [step, stepEff, initializeProjectOp, hf]

theorem step_register_st (w : World) (d : AgentData) (ws : Option Nat) :
    ∃ k v, (step w (.register d ws)).st =
      { w.st with agents := mapSet w.st.agents k v, updatedAt := w.now } := by
  rcases hf : freshId d.id w.ctr with ⟨aid, c2⟩
  refine ⟨aid,
    { id := aid
      name := jsOrString d.name "Unknown Agent"
      role := jsOrString d.role "fullstack"
      model := jsOrString d.model "custom"
      status := "active"
      currentTask := d.currentTask
      websocket := ws
      lastSeen := w.now
      capabilities := d.capabilities.getD []
      preferences := d.preferences.getD [] }, ?_⟩
  simp [step, stepEff, registerAgentOp, hf]

theorem step_mkTask_st (w : World) (d : TaskData) :
    ∃ k v, (step w (.mkTask d)).st =
      { w.st with tasks := mapSet w.st.tasks k v, updatedAt := w.now } := by
  rcases hf : freshId d.id w.ctr with ⟨tid, c2⟩
  refine ⟨tid,
    { id := tid
      title := jsOrString d.title "Untitled Task"
      description := jsOrString d.description ""
      assignedTo := d.assignedTo
      status := jsOrString d.status "todo"
      priority := jsOrString d.priority "medium"
      dependencies := d.dependencies.getD []
      estimatedHours := d.estimatedHours
      actualHours := d.actualHours
      createdAt := w.now
      updatedAt := w.now
      tags := d.tags.getD [] }, ?_⟩
  simp [step, stepEff, createTaskOp, hf]

theorem step_updAgent_st (w : World) (aid : String) (u : AgentUpdates) :
    step w (.updAgent aid u) = w ∨
    ∃ v, (step w (.updAgent aid u)).st =
      { w.st with agents := mapSet w.st.agents aid v, updatedAt := w.now } := by
  cases hg : mapGet w.st.agents aid with
  | none => left; simp [step, stepEff, updateAgentOp, hg]
  | some a =>
    right
    exact ⟨applyAgentUpdates a u w.now, by simp [step, stepEff, updateAgentOp, hg]⟩

theorem step_rmAgent_st (w : World) (aid : String) :
    step w (.rmAgent aid) = w ∨
    (step w (.rmAgent aid)).st =
      { w.st with agents := mapDelete w.st.agents aid, updatedAt := w.now } := by
  cases hg : mapGet w.st.agents aid with
  | none => left; simp [step, stepEff, removeAgentOp, hg]
  | some a => right; simp [step, stepEff, removeAgentOp, hg]

theorem step_rmTask_st (w : World) (tid : String) :
    (step w (.rmTask tid)).st =
      { w.st with tasks := mapDelete w.st.tasks tid, updatedAt := w.now } := by
  simp [step, stepEff, deleteTaskOp]

theorem step_ctx_st (w : World) (p : List (String × String)) :
    (step w (.ctx p)).st.agents = w.st.agents ∧
    (step w (.ctx p)).st.tasks = w.st.tasks ∧
    (step w (.ctx p)).st.messageHistory = w.st.messageHistory := by
  refine ⟨?_, ?_, ?_⟩ <;> simp [step, stepEff, updateContextOp]

theorem step_updTask_ok {w : World} {tid : String} {u : TaskUpdates}
    {st2 : ProjectState} {ctr2 : Nat} {evs : List Event} {k : Nat}
    (h : updateTaskOp w.st w.ctr w.now tid u = .ok (st2, ctr2, evs, k)) :
    step w (.updTask tid u) = ⟨st2, ctr2, w.now⟩ := by
  simp [step, stepEff, h]

theorem step_updTask_err {w : World} {tid : String} {u : TaskUpdates}
    {e : String} (h : updateTaskOp w.st w.ctr w.now tid u = .error e) :
    step w (.updTask tid u) = w := by
  simp [step, stepEff, h]

theorem updateTaskOp_ok_uniqueIds {st : ProjectState} {ctr now : Nat}
    {tid : String} {u : TaskUpdates} {st2 : ProjectState} {ctr2 : Nat}
    {evs : List Event} {k : Nat}
    (hA : (mapKeys st.agents).Nodup) (hT : (mapKeys st.tasks).Nodup)
    (hM : (msgIds st.messageHistory).Nodup)
    (hfree : (u.status = some "completed" ∨ u.status = some "blocked") →
      genId ctr ∉ msgIds st.messageHistory)
    (h : updateTaskOp st ctr now tid u = .ok (st2, ctr2, evs, k)) :
    UniqueIds st2 := by
  unfold updateTaskOp at h
  cases hg : mapGet st.tasks tid with
  | none => rw [hg] at h; cases h
  | some t =>
    rw [hg] at h
    simp only [sendMessageOp_eq] at h
    split at h
    next hcompleted =>
      split at h
      next =>
        simp only [Except.ok.injEq, Prod.mk.injEq] at h
        obtain ⟨h1, -, -, -⟩ := h
        subst h1
        refine ⟨hA, nodup_mapKeys_mapSet _ hT, ?_⟩
        refine nodup_msgIds_capAppend hM ?_
        rw [buildMessage_fst_id]
        exact hfree (Or.inl hcompleted)
      next =>
        simp only [Except.ok.injEq, Prod.mk.injEq] at h
        obtain ⟨h1, -, -, -⟩ := h
        subst h1
        exact ⟨hA, nodup_mapKeys_mapSet _ hT, hM⟩
    next =>
      split at h
      next hblocked =>
        split at h
        next =>
          simp only [Except.ok.injEq, Prod.mk.injEq] at h
          obtain ⟨h1, -, -, -⟩ := h
          subst h1
          refine ⟨hA, nodup_mapKeys_mapSet _ hT, ?_⟩
          refine nodup_msgIds_capAppend hM ?_
          rw [buildMessage_fst_id]
          exact hfree (Or.inr hblocked)
        next =>
          simp only [Except.ok.injEq, Prod.mk.injEq] at h
          obtain ⟨h1, -, -, -⟩ := h
          subst h1
          exact ⟨hA, nodup_mapKeys_mapSet _ hT, hM⟩
      next =>
        simp only [Except.ok.injEq, Prod.mk.injEq] at h
        obtain ⟨h1, -, -, -⟩ := h
        subst h1
        exact ⟨hA, nodup_mapKeys_mapSet _ hT, hM⟩

theorem updateTaskOp_ok_keys {st : ProjectState} {ctr now : Nat}
    {tid : String} {u : TaskUpdates} {st2 : ProjectState} {ctr2 : Nat}
    {evs : List Event} {k : Nat}
    (h : updateTaskOp st ctr now tid u = .ok (st2, ctr2, evs, k)) :
    st2.agents = st.agents ∧ ∃ t2, st2.tasks = mapSet st.tasks tid t2 := by
  unfold updateTaskOp at h
  cases hg : mapGet st.tasks tid with
  | none => rw [hg] at h; cases h
  | some t =>
    rw [hg] at h
    simp only [sendMessageOp_eq] at h
    split at h
    next =>
      split at h
      next =>
        simp only [Except.ok.injEq, Prod.mk.injEq] at h
        obtain ⟨h1, -, -, -⟩ := h
        subst h1
        exact ⟨rfl, applyTaskUpdates t u now, rfl⟩
      next =>
        simp only [Except.ok.injEq, Prod.mk.injEq] at h
        obtain ⟨h1, -, -, -⟩ := h
        subst h1
        exact ⟨rfl, applyTaskUpdates t u now, rfl⟩
    next =>
      split at h
      next =>
        split at h
        next =>
          simp only [Except.ok.injEq, Prod.mk.injEq] at h
          obtain ⟨h1, -, -, -⟩ := h
          subst h1
          exact ⟨rfl, applyTaskUpdates t u now, rfl⟩
        next =>
          simp only [Except.ok.injEq, Prod.mk.injEq] at h
          obtain ⟨h1, -, -, -⟩ := h
          subst h1
          exact ⟨rfl, applyTaskUpdates t u now, rfl⟩
      next =>
        simp only [Except.ok.injEq, Prod.mk.injEq] at h
        obtain ⟨h1, -, -, -⟩ := h
        subst h1
        exact ⟨rfl, applyTaskUpdates t u now, rfl⟩

/-- Agent and task map keys stay pairwise distinct across any single
command, with no freshness assumption: `Map.set` and `Map.delete` preserve
key uniqueness by construction. -/
theorem step_preserves_uniqueKeys (w : World) (c : Command)
    (hA : (mapKeys w.st.agents).Nodup) (hT : (mapKeys w.st.tasks).Nodup) :
    (mapKeys (step w c).st.agents).Nodup ∧
      (mapKeys (step w c).st.tasks).Nodup := by
  cases c with
  | init d =>
    obtain ⟨h1, h2, -⟩ := step_init_st w d
    exact ⟨h1 ▸ hA, h2 ▸ hT⟩
  | register d ws =>
    obtain ⟨k, v, hst⟩ := step_register_st w d ws
    rw [hst]
    exact ⟨nodup_mapKeys_mapSet _ hA, hT⟩
  | updAgent aid u =>
    rcases step_updAgent_st w aid u with hw | ⟨v, hst⟩
    · rw [hw]; exact ⟨hA, hT⟩
    · rw [hst]; exact ⟨nodup_mapKeys_mapSet _ hA, hT⟩
  | rmAgent aid =>
    rcases step_rmAgent_st w aid with hw | hst
    · rw [hw]; exact ⟨hA, hT⟩
    · rw [hst]; exact ⟨nodup_mapKeys_mapDelete _ hA, hT⟩
  | mkTask d =>
    obtain ⟨k, v, hst⟩ := step_mkTask_st w d
    rw [hst]
    exact ⟨hA, nodup_mapKeys_mapSet _ hT⟩
  | updTask tid u =>
    cases hu : updateTaskOp w.st w.ctr w.now tid u with
    | error e => rw [step_updTask_err hu]; exact ⟨hA, hT⟩
    | ok val =>
      obtain ⟨st2, ctr2, evs, k⟩ := val
      rw [step_updTask_ok hu]
      obtain ⟨hag, t2, htk⟩ := updateTaskOp_ok_keys hu
      exact ⟨hag ▸ hA, htk ▸ nodup_mapKeys_mapSet _ hT⟩
  | rmTask tid =>
    rw [step_rmTask_st]
    exact ⟨hA, nodup_mapKeys_mapDelete _ hT⟩
  | send d =>
    rw [step_send]
    exact ⟨hA, hT⟩
  | ctx p =>
    obtain ⟨h1, h2, -⟩ := step_ctx_st w p
    exact ⟨h1 ▸ hA, h2 ▸ hT⟩

theorem run_preserves_uniqueKeys (w : World) (cs : List Command)
    (hA : (mapKeys w.st.agents).Nodup) (hT : (mapKeys w.st.tasks).Nodup) :
    (mapKeys (run w cs).st.agents).Nodup ∧
      (mapKeys (run w cs).st.tasks).Nodup := by
  induction cs generalizing w with
  | nil => exact ⟨hA, hT⟩
  | cons c cs ih =>
    obtain ⟨hA2, hT2⟩ := step_preserves_uniqueKeys w c hA hT
    exact ih (step w c) hA2 hT2

theorem step_preserves_uniqueIds (w : World) (c : Command)
    (hInv : UniqueIds w.st) (hF : stepFreshB w c = true) :
    UniqueIds (step w c).st := by
  obtain ⟨hA, hT, hM⟩ := hInv
  cases c with
  | init d =>
    obtain ⟨h1, h2, h3⟩ := step_init_st w d
    refine ⟨h1 ▸ hA, h2 ▸ hT, ?_⟩
    rw [h3]
    cases hh : d.messageHistory with
    | none => exact hM
    | some hist =>
      have hfb : stepFreshB w (.init d) = decide (msgIds hist).Nodup := by
        simp [stepFreshB, hh]
      rw [hfb] at hF
      exact of_decide_eq_true hF
  | register d ws =>
    obtain ⟨k, v, hst⟩ := step_register_st w d ws
    rw [hst]
    exact ⟨nodup_mapKeys_mapSet _ hA, hT, hM⟩
  | updAgent aid u =>
    rcases step_updAgent_st w aid u with hw | ⟨v, hst⟩
    · rw [hw]; exact ⟨hA, hT, hM⟩
    · rw [hst]; exact ⟨nodup_mapKeys_mapSet _ hA, hT, hM⟩
  | rmAgent aid =>
    rcases step_rmAgent_st w aid with hw | hst
    · rw [hw]; exact ⟨hA, hT, hM⟩
    · rw [hst]; exact ⟨nodup_mapKeys_mapDelete _ hA, hT, hM⟩
  | mkTask d =>
    obtain ⟨k, v, hst⟩ := step_mkTask_st w d
    rw [hst]
    exact ⟨hA, nodup_mapKeys_mapSet _ hT, hM⟩
  | updTask tid u =>
    cases hu : updateTaskOp w.st w.ctr w.now tid u with
    | error e => rw [step_updTask_err hu]; exact ⟨hA, hT, hM⟩
    | ok val =>
      obtain ⟨st2, ctr2, evs, k⟩ := val
      rw [step_updTask_ok hu]
      refine updateTaskOp_ok_uniqueIds hA hT hM ?_ hu
      intro hs
      have hfb : stepFreshB w (.updTask tid u) =
          decide (genId w.ctr ∉ msgIds w.st.messageHistory) := by
        simp [stepFreshB, if_pos hs]
      rw [hfb] at hF
      exact of_decide_eq_true hF
  | rmTask tid =>
    rw [step_rmTask_st]
    exact ⟨hA, nodup_mapKeys_mapDelete _ hT, hM⟩
  | send d =>
    rw [step_send]
    refine ⟨hA, hT, ?_⟩
    refine nodup_msgIds_capAppend hM ?_
    rw [buildMessage_fst_id]
    exact of_decide_eq_true hF
  | ctx p =>
    obtain ⟨h1, h2, h3⟩ := step_ctx_st w p
    exact ⟨h1 ▸ hA, h2 ▸ hT, h3 ▸ hM⟩

/-- C3 counterexample: two `sendMessage` commands carrying the same
explicit id leave two messages with id `m1` in the history, so identifier
uniqueness after arbitrary command sequences fails. -/
def exC3w : World :=
  run w0 [.send { id := some "m1" }, .send { id := some "m1" }]

theorem duplicate_message_id_breaks_uniqueIds : ¬ UniqueIds exC3w.st := by
  decide

theorem run_uniqueIds_of_fresh (w : World) (cs : List Command)
    (hInv : UniqueIds w.st) (hF : traceFreshB w cs = true) :
    UniqueIds (run w cs).st := by
  induction cs generalizing w with
  | nil => exact hInv
  | cons c cs ih =>
    rw [traceFreshB, Bool.and_eq_true] at hF
    exact ih (step w c) (step_preserves_uniqueIds w c hInv hF.1) hF.2

/-- C3 (amended): after any command sequence whatsoever, agent map keys
and task map keys are pairwise distinct — unconditionally; and message ids
are pairwise distinct provided every inserted message id — caller-supplied
or freshly generated — is new to the history at insertion time (which a
duplicated explicit id violates). -/
theorem commands_preserve_uniqueIds (w : World) (cs : List Command)
    (hInv : UniqueIds w.st) :
    ((mapKeys (run w cs).st.agents).Nodup ∧
      (mapKeys (run w cs).st.tasks).Nodup) ∧
    (traceFreshB w cs = true → UniqueIds (run w cs).st) := by
  obtain ⟨hA, hT, hM⟩ := hInv
  exact ⟨run_preserves_uniqueKeys w cs hA hT,
    fun hF => run_uniqueIds_of_fresh w cs ⟨hA, hT, hM⟩ hF⟩

/-- The trace used by the C3 witness. -/
def exC3Trace : List Command :=
  [.register { id := some "a1" } none, .mkTask { id := some "t1" },
   .send { id := some "m1" }, .send {}]

/-- C3 witness: a register + task + two sends trace; the key-uniqueness
part holds outright and the message part under the fresh-id check. -/
theorem commands_preserve_uniqueIds_witness :
    UniqueIds w0.st ∧ traceFreshB w0 exC3Trace = true ∧
      ((mapKeys (run w0 exC3Trace).st.agents).Nodup ∧
        (mapKeys (run w0 exC3Trace).st.tasks).Nodup) ∧
      UniqueIds (run w0 exC3Trace).st := by
  refine ⟨by decide, by decide, ?_, ?_⟩
  · exact (commands_preserve_uniqueIds w0 exC3Trace (by decide)).1
  · exact (commands_preserve_uniqueIds w0 exC3Trace (by decide)).2 (by decide)

end AiCollab
